import Mathlib

/-!
Shallow embedding of `task-tracker-cli.py`, a command-line task tracker that
persists a list of tasks to a JSON file (`tasks.json` in the working
directory) and supports six commands: add, update, delete, mark, list,
details.

Modelling conventions:
* JSON values are the inductive `Json` below; JSON numbers are modelled as
  integers (the program only ever stores integer ids and strings).
  `json.dump` / `json.load` of the Python standard library are modelled as
  storing / reading the JSON value itself: the file system maps each path to
  a `FileContent` that is either absent, a parsed JSON value, or malformed
  text (text that `json.load` rejects).
* The file system `FS` has one slot per path the program touches:
  `tasks.json` (main), `tasks.json.bak` (bak), `tasks.json.tmp` (tmp).
* `sys.exit(n)` is modelled by returning a result with that exit code;
  the Python code never continues after `sys.exit`.
* Timestamps (`now_iso()`) are an input `now : String` to each command.
* The Python `int()` call on a command-line argument is modelled by `parse_int`
  (optional sign then decimal digits), and `str.lower()` by `pyToLower`
  (ASCII case mapping); they agree with Python on the inputs involved.
-/

namespace TaskTracker

/-- JSON values; numbers restricted to integers (all the program stores). -/
inductive Json where
  | null : Json
  | bool (b : Bool) : Json
  | num (n : Int) : Json
  | str (s : String) : Json
  | arr (l : List Json) : Json
  | obj (kvs : List (String × Json)) : Json
deriving Repr

/-- Content of one file-system path. -/
inductive FileContent where
  | absent : FileContent
  | valid (j : Json) : FileContent
  | malformed (raw : String) : FileContent
deriving Repr

/-- The three paths the program touches: `tasks.json`, `tasks.json.bak`,
`tasks.json.tmp` (see `pyWithSuffix` for how the names are derived). -/
structure FS where
  main : FileContent
  bak : FileContent
  tmp : FileContent
deriving Repr

/-- `DB_FILENAME = "tasks.json"` from the source. -/
def DB_FILENAME : String := "tasks.json"

/-- Python `Path.with_suffix`: drop the last dot-suffix of the name, then
append the new suffix (e.g. `tasks.json` with `.json.bak` gives
`tasks.json.bak`). -/
def pyWithSuffix (p suffix : String) : String :=
  let rev := p.data.reverse
  match rev.dropWhile (fun c => !(c == '.')) with
  | [] => ⟨p.data ++ suffix.data⟩
  | _ :: stemRev => ⟨stemRev.reverse ++ suffix.data⟩

/-- Result of `load_tasks`: the returned raw list, the file system after the
call, and the warnings printed to stderr. -/
structure LoadResult where
  tasks : List Json
  fs : FS
  warnings : List String
deriving Repr

/-- `load_tasks()` from the source: returns `[]` when the file is absent;
returns the parsed list when the file holds a JSON array; warns and returns
`[]` when it holds JSON that is not an array (file untouched); when the file
is malformed, renames it to the backup path (modelled by moving `main` to
`bak`; `renameOk` says whether the rename succeeds) and returns `[]`,
falling back to a warning leaving the file in place when the rename fails. -/
def load_tasks (fs : FS) (renameOk : Bool) : LoadResult :=
  match fs.main with
  | .absent => ⟨[], fs, []⟩
  | .valid j =>
    match j with
    | .arr l => ⟨l, fs, []⟩
    | _ => ⟨[], fs, ["Warning: tasks.json is not a list; starting with an empty list."]⟩
  | .malformed raw =>
    if renameOk then
      ⟨[], ⟨.absent, .malformed raw, fs.tmp⟩,
        ["Warning: tasks.json was corrupt. Backed up to tasks.json.bak. Starting fresh."]⟩
    else
      ⟨[], fs, ["Warning: tasks.json was corrupt and could not be backed up. Starting fresh."]⟩

/-- `save_tasks(tasks)` from the source: write the serialized array to the
temporary path, then `os.replace` it over the main path (the tmp slot is
emptied by the replace). -/
def save_tasks (tasks : List Json) (fs : FS) : FS :=
  let afterWrite : FS := ⟨fs.main, fs.bak, .valid (.arr tasks)⟩
  ⟨afterWrite.tmp, afterWrite.bak, .absent⟩

/-- A task record, as built by `cmd_add` (a Python dict with exactly these
six keys, in this insertion order). -/
structure Task where
  id : Int
  title : String
  description : String
  status : String
  created_at : String
  updated_at : String
deriving Repr, DecidableEq

/-- The JSON object the program serializes for a task (the dict literal in
`cmd_add`, key order as in the source). -/
def Task.toJson (t : Task) : Json :=
  .obj [("id", .num t.id), ("title", .str t.title),
        ("description", .str t.description), ("status", .str t.status),
        ("created_at", .str t.created_at), ("updated_at", .str t.updated_at)]

/-- First value bound to a key in an association list (Python dict lookup
for the dicts the program builds, which never repeat a key). -/
def jlookup (key : String) : List (String × Json) → Option Json
  | [] => none
  | (k, v) :: kvs => if k = key then some v else jlookup key kvs

/-- Decoder used to state field-for-field equality of a loaded raw object
with a task: succeeds exactly when every field is present with the expected
type. (The source keeps tasks as raw dicts; this is the measuring device
for the round-trip property, not a source function.) -/
def Task.fromJson? (j : Json) : Option Task :=
  match j with
  | .obj kvs =>
    match jlookup "id" kvs, jlookup "title" kvs, jlookup "description" kvs,
          jlookup "status" kvs, jlookup "created_at" kvs, jlookup "updated_at" kvs with
    | some (.num i), some (.str ti), some (.str d), some (.str s),
      some (.str c), some (.str u) => some ⟨i, ti, d, s, c, u⟩
    | _, _, _, _, _, _ => none
  | _ => none

/-- `VALID_STATUSES = {"todo", "in-progress", "done"}`. -/
def VALID_STATUSES : List String := ["todo", "in-progress", "done"]

/-- Python `max(xs, default=d)` over a list of integers. -/
def pymax (l : List Int) (d : Int) : Int :=
  match l with
  | [] => d
  | x :: xs => xs.foldl max x

/-- `next_id(tasks)`: `max((t.get("id", 0) for t in tasks), default=0) + 1`
when `tasks` is non-empty, else `1` (a `Task` always has its `id` field, so
`t.get("id", 0)` is just the id). -/
def next_id (tasks : List Task) : Int :=
  if tasks.isEmpty then 1 else pymax (tasks.map Task.id) 0 + 1

/-- `find_task(tasks, tid)`: first task with the given id, else `None`. -/
def find_task (tasks : List Task) (tid : Int) : Option Task :=
  match tasks with
  | [] => none
  | t :: ts => if t.id = tid then some t else find_task ts tid

/-- Python `str.lower()` (ASCII case mapping; all strings the program
lowercases — command names, statuses, filters — are ASCII). -/
def pyToLower (s : String) : String :=
  ⟨s.data.map Char.toLower⟩

/-- Decimal digits to a number, left to right; `none` on a non-digit. -/
def parseNatDigits (acc : Nat) : List Char → Option Nat
  | [] => some acc
  | c :: cs => if c.isDigit then parseNatDigits (10 * acc + (c.toNat - 48)) cs else none

/-- `parse_int(value)`: Python `int(value)` on a canonical decimal string
(optional sign, then digits), `none` when it raises `ValueError`. -/
def parse_int (value : String) : Option Int :=
  match value.data with
  | [] => none
  | '-' :: cs =>
    if cs.isEmpty then none else (parseNatDigits 0 cs).map (fun n => -(n : Int))
  | '+' :: cs =>
    if cs.isEmpty then none else (parseNatDigits 0 cs).map (fun n => (n : Int))
  | cs => (parseNatDigits 0 cs).map (fun n => (n : Int))

/-- Result of one command at the in-memory store level: exit code, the store
as saved (equal to the input store when nothing was saved), the tasks
printed via `print_task` in order, other stdout lines, and stderr lines. -/
structure CmdResult where
  exitCode : Nat
  store : List Task
  printed : List Task
  out : List String
  err : List String
deriving Repr, DecidableEq

/-- In-place mutation of the first task with the given id (Python mutates
the dict object returned by `find_task`, which is the first match). -/
def updateFirst (tid : Int) (f : Task → Task) : List Task → List Task
  | [] => []
  | t :: ts => if t.id = tid then f t :: ts else t :: updateFirst tid f ts

/-- `cmd_add(args)`; `args` starts with the command name, as in the source
(`args = sys.argv[1:]`). -/
def cmd_add (args : List String) (store : List Task) (now : String) : CmdResult :=
  if args.length < 2 then
    ⟨1, store, [], [], ["Usage: add <title> <description(optional)>"]⟩
  else
    let title := args.getD 1 ""
    let description := args.getD 2 ""
    let tid := next_id store
    let task : Task := ⟨tid, title, description, "todo", now, now⟩
    let tasks := store ++ [task]
    ⟨0, tasks, [task], ["Added task #" ++ toString tid ++ "."], []⟩

/-- `cmd_update(args)`. -/
def cmd_update (args : List String) (store : List Task) (now : String) : CmdResult :=
  if args.length < 4 then
    ⟨1, store, [], [], ["Usage: update <id> <new_title> <new_description(optional)>"]⟩
  else
    match parse_int (args.getD 1 "") with
    | none => ⟨1, store, [], [], ["Error: id must be an integer."]⟩
    | some tid =>
      let title := args.getD 2 ""
      let description := args.getD 3 ""
      match find_task store tid with
      | none => ⟨1, store, [], [], ["Error: task #" ++ toString tid ++ " not found."]⟩
      | some t =>
        let t2 : Task := { t with title := title, description := description, updated_at := now }
        let tasks := updateFirst tid (fun u => { u with title := title, description := description, updated_at := now }) store
        ⟨0, tasks, [t2], ["Updated task #" ++ toString tid ++ "."], []⟩

/-- `cmd_delete(args)` at the store level: full filter on the id, not-found
when the length did not change. -/
def cmd_delete (args : List String) (store : List Task) : CmdResult :=
  if args.length < 2 then
    ⟨1, store, [], [], ["Usage: delete <id>"]⟩
  else
    match parse_int (args.getD 1 "") with
    | none => ⟨1, store, [], [], ["Error: id must be an integer."]⟩
    | some tid =>
      let before := store.length
      let tasks := store.filter (fun t => !(t.id == tid))
      if tasks.length = before then
        ⟨1, store, [], [], ["Error: task #" ++ toString tid ++ " not found."]⟩
      else
        ⟨0, tasks, [], ["Deleted task #" ++ toString tid ++ "."], []⟩

/-- `cmd_mark(args)`: parse the id, then validate the lowercased status
before loading; on success mutate status and `updated_at` of the first
match. -/
def cmd_mark (args : List String) (store : List Task) (now : String) : CmdResult :=
  if args.length < 3 then
    ⟨1, store, [], [], ["Usage: mark <id> <todo|in-progress|done>"]⟩
  else
    match parse_int (args.getD 1 "") with
    | none => ⟨1, store, [], [], ["Error: id must be an integer."]⟩
    | some tid =>
      let status := pyToLower (args.getD 2 "")
      if status ∈ VALID_STATUSES then
        match find_task store tid with
        | none => ⟨1, store, [], [], ["Error: task #" ++ toString tid ++ " not found."]⟩
        | some t =>
          let t2 : Task := { t with status := status, updated_at := now }
          let tasks := updateFirst tid (fun u => { u with status := status, updated_at := now }) store
          ⟨0, tasks, [t2], ["Marked task #" ++ toString tid ++ " as " ++ status ++ "."], []⟩
      else
        ⟨1, store, [], [], ["Error: status must be one of: todo, in-progress, done."]⟩

/-- The sort comparison of `cmd_list`: Python tuple comparison on the key
`(status, id)` — status strings lexicographically, then ids. -/
def taskLe (a b : Task) : Bool :=
  decide (a.status < b.status ∨ (a.status = b.status ∧ a.id ≤ b.id))

/-- `cmd_list(args)`: validate the lowercased filter, filter by status
unless `all`, print "No tasks to show." when nothing matches, else print
every matching task sorted by `(status, id)`. -/
def cmd_list (args : List String) (store : List Task) : CmdResult :=
  if args.length < 2 then
    ⟨1, store, [], [], ["Usage: list <all|todo|in-progress|done>"]⟩
  else
    let flt := pyToLower (args.getD 1 "")
    if flt ≠ "all" ∧ flt ∉ VALID_STATUSES then
      ⟨1, store, [], [], ["Error: filter must be one of: all, todo, in-progress, done."]⟩
    else
      let tasks := if flt ≠ "all" then store.filter (fun t => t.status == flt) else store
      if tasks.isEmpty then
        ⟨0, store, [], ["No tasks to show."], []⟩
      else
        ⟨0, store, tasks.mergeSort taskLe, [], []⟩

/-- `cmd_details(args)`. -/
def cmd_details (args : List String) (store : List Task) : CmdResult :=
  if args.length < 2 then
    ⟨1, store, [], [], ["Usage: details <id>"]⟩
  else
    match parse_int (args.getD 1 "") with
    | none => ⟨1, store, [], [], ["Error: id must be an integer."]⟩
    | some tid =>
      match find_task store tid with
      | none => ⟨1, store, [], [], ["Error: task #" ++ toString tid ++ " not found."]⟩
      | some t => ⟨0, store, [t], [], []⟩

/-- The help text printed by `print_help()` (modelled as one stdout line). -/
def helpText : String :=
  "Task Tracker CLI\n\nUsage:\n  python task_tracker-cli.py <command> [args]\n\nCommands (positional, no flags):\n  add <title> <description(optional)>\n  update <id> <new_title> <new_description(optional)>\n  delete <id>\n  mark <id> <todo|in-progress|done>\n  list <all|todo|in-progress|done>\n  details <id>\n\nExamples:\n  python task_tracker-cli.py add \"Buy milk\" \"Remember lactose-free\"\n  python task_tracker-cli.py list all\n  python task_tracker-cli.py mark 1 in-progress\n  python task_tracker-cli.py update 1 \"Buy milk and bread\" \"Both from local store\"\n  python task_tracker-cli.py list done\n  python task_tracker-cli.py delete 1"

/-- `main()`: dispatch on the lowercased first argument; `argv` is the full
`sys.argv` (program name first). -/
def main (argv : List String) (store : List Task) (now : String) : CmdResult :=
  if argv.length < 2 then
    ⟨0, store, [], [helpText], []⟩
  else
    let cmd := pyToLower (argv.getD 1 "")
    let args := argv.drop 1
    if cmd = "add" then cmd_add args store now
    else if cmd = "update" then cmd_update args store now
    else if cmd = "delete" then cmd_delete args store
    else if cmd = "mark" then cmd_mark args store now
    else if cmd = "list" then cmd_list args store
    else if cmd = "details" then cmd_details args store
    else if cmd = "help" ∨ cmd = "-h" ∨ cmd = "--help" then
      ⟨0, store, [], [helpText], []⟩
    else
      ⟨1, store, [], [helpText], ["Unknown command: " ++ cmd]⟩

/-- The value of `__name__` when the module is executed as a script. -/
def NAME_MAIN : String := "__main__"

/-- The literal that the entry guard in the source compares `__name__` against. -/
def ENTRY_GUARD : String := "_main_"

/-- The module run as a script: the guard `if __name__ == "_main_":`
invokes `main()` only when the comparison holds; otherwise the process
falls off the end of the module and exits 0 with no output. -/
def runScript (argv : List String) (store : List Task) (now : String) : CmdResult :=
  if NAME_MAIN = ENTRY_GUARD then main argv store now
  else ⟨0, store, [], [], []⟩

/-- Python `t.get("id")` on a raw loaded value: a dict lookup, or an
`AttributeError` (modelled as `.error ()`) when the value is not a dict. -/
def pyGetId : Json → Except Unit (Option Json)
  | .obj kvs => .ok (jlookup "id" kvs)
  | _ => .error ()

/-- Python `v == tid` for a JSON value against an int: numbers compare by
value, and booleans compare as 1/0 (Python bool is a subtype of int);
everything else is unequal to an int. -/
def pyEqInt : Json → Int → Bool
  | .num n, tid => n == tid
  | .bool b, tid => (if b then (1 : Int) else 0) == tid
  | _, _ => false

/-- Python `t.get("id") == tid` (`None` is unequal to any int). -/
def isIdNum (v : Option Json) (tid : Int) : Bool :=
  match v with
  | some j => pyEqInt j tid
  | none => false

/-- Whether a raw loaded value is a dict whose `id` compares equal to `tid`. -/
def jsonHasId (t : Json) (tid : Int) : Bool :=
  match pyGetId t with
  | .ok v => isIdNum v tid
  | .error _ => false

/-- The list comprehension `[t for t in tasks if t.get("id") != tid]`,
evaluated left to right; the first non-dict element raises. -/
def deleteFilter (tid : Int) : List Json → Except Unit (List Json)
  | [] => .ok []
  | t :: ts =>
    match pyGetId t with
    | .error e => .error e
    | .ok v =>
      match deleteFilter tid ts with
      | .error e => .error e
      | .ok rest => .ok (if isIdNum v tid then rest else t :: rest)

/-- Result of one command at the file-system level. -/
structure FsResult where
  exitCode : Nat
  fs : FS
  out : List String
  err : List String
deriving Repr

/-- `cmd_delete(args)` at the file-system level: load, filter out every
element whose `id` equals the parsed id, not-found (exit 1, no save) when
the length did not change, else save. An uncaught `AttributeError` from a
non-dict element terminates the process with exit code 1 before any save. -/
def cmd_delete_fs (args : List String) (fs : FS) (renameOk : Bool) : FsResult :=
  if args.length < 2 then
    ⟨1, fs, [], ["Usage: delete <id>"]⟩
  else
    match parse_int (args.getD 1 "") with
    | none => ⟨1, fs, [], ["Error: id must be an integer."]⟩
    | some tid =>
      let lr := load_tasks fs renameOk
      let before := lr.tasks.length
      match deleteFilter tid lr.tasks with
      | .error _ => ⟨1, lr.fs, [], lr.warnings ++ ["AttributeError"]⟩
      | .ok tasks =>
        if tasks.length = before then
          ⟨1, lr.fs, [], lr.warnings ++ ["Error: task #" ++ toString tid ++ " not found."]⟩
        else
          ⟨0, save_tasks tasks lr.fs, ["Deleted task #" ++ toString tid ++ "."], lr.warnings⟩

/-- One store-mutating CLI invocation, for reasoning about sequences of
`add` and `delete` runs (each run carries its own timestamp / id string,
exactly the data the command line supplies). -/
inductive Op where
  | add (title description now : String)
  | del (idStr : String)

/-- The store after one invocation (each invocation loads the store, runs
the command, and the saved store is what the next invocation loads). -/
def applyOp (store : List Task) : Op → List Task
  | .add title description now => (cmd_add ["add", title, description] store now).store
  | .del idStr => (cmd_delete ["delete", idStr] store).store

/-- The store after a sequence of invocations starting from an empty store. -/
def execOps (ops : List Op) : List Task :=
  ops.foldl applyOp []

lemma le_foldl_max (xs : List Int) (a : Int) : a ≤ xs.foldl max a := by
  induction xs generalizing a with
  | nil => exact le_refl a
  | cons x xs ih => exact le_trans (le_max_left a x) (ih (max a x))

lemma mem_le_foldl_max (xs : List Int) (a x : Int) (h : x ∈ xs) :
    x ≤ xs.foldl max a := by
  induction xs generalizing a with
  | nil => cases h
  | cons y ys ih =>
    rcases List.mem_cons.mp h with rfl | hmem
    · exact le_trans (le_max_right a x) (le_foldl_max ys (max a x))
    · exact ih (max a y) hmem

lemma mem_le_pymax (l : List Int) (d x : Int) (h : x ∈ l) : x ≤ pymax l d := by
  cases l with
  | nil => cases h
  | cons y ys =>
    rcases List.mem_cons.mp h with rfl | hmem
    · exact le_foldl_max ys x
    · exact mem_le_foldl_max ys y x hmem

lemma id_lt_next_id (s : List Task) (t : Task) (h : t ∈ s) : t.id < next_id s := by
  have hne : ¬ s.isEmpty := by
    cases s with
    | nil => cases h
    | cons a l => simp
  have hle : t.id ≤ pymax (s.map Task.id) 0 :=
    mem_le_pymax _ 0 t.id (List.mem_map.mpr ⟨t, h, rfl⟩)
  simp only [next_id, hne, if_neg, Bool.false_eq_true, not_false_iff, if_false]
  omega

lemma next_id_pos (s : List Task) (h : ∀ t ∈ s, 1 ≤ t.id) : 1 ≤ next_id s := by
  cases s with
  | nil => simp [next_id]
  | cons a l =>
    have h1 : 1 ≤ a.id := h a (List.mem_cons_self a l)
    have h2 : a.id ≤ pymax ((a :: l).map Task.id) 0 :=
      mem_le_pymax _ 0 a.id (List.mem_map.mpr ⟨a, List.mem_cons_self a l, rfl⟩)
    simp only [next_id, List.isEmpty_cons, Bool.false_eq_true, if_false]
    omega

/-- `cmd_add` with title and description present appends the fresh task. -/
lemma cmd_add_store (title description : String) (s : List Task) (now : String) :
    cmd_add ["add", title, description] s now
      = ⟨0, s ++ [⟨next_id s, title, description, "todo", now, now⟩],
         [⟨next_id s, title, description, "todo", now, now⟩],
         ["Added task #" ++ toString (next_id s) ++ "."], []⟩ := by
  simp [cmd_add]

/-- Every branch of `cmd_delete` saves a sublist of the loaded store. -/
lemma cmd_delete_store_sublist (args : List String) (s : List Task) :
    (cmd_delete args s).store.Sublist s := by
  unfold cmd_delete
  by_cases hlen : args.length < 2
  · simp [hlen]
  · simp only [hlen, if_false]
    cases hp : parse_int (args.getD 1 "") with
    | none => exact List.Sublist.refl s
    | some tid =>
      simp only
      by_cases hfull : (s.filter (fun t => !(t.id == tid))).length = s.length
      · simp only [hfull, if_pos]
        exact List.Sublist.refl s
      · simp only [hfull, if_neg, not_false_iff]
        exact List.filter_sublist s

/-- The id positivity and distinctness invariant is preserved by one
invocation. -/
lemma applyOp_inv (s : List Task) (op : Op)
    (h1 : ∀ t ∈ s, 1 ≤ t.id)
    (h2 : s.Pairwise (fun a b => a.id ≠ b.id)) :
    (∀ t ∈ applyOp s op, 1 ≤ t.id) ∧
    (applyOp s op).Pairwise (fun a b => a.id ≠ b.id) := by
  cases op with
  | add title description now =>
    simp only [applyOp, cmd_add_store]
    constructor
    · intro t ht
      rcases List.mem_append.mp ht with hmem | hnew
      · exact h1 t hmem
      · have : t = ⟨next_id s, title, description, "todo", now, now⟩ := by
          simpa using hnew
        subst this
        exact next_id_pos s h1
    · refine List.pairwise_append.mpr ⟨h2, List.pairwise_singleton _ _, ?_⟩
      intro a ha b hb
      have hb2 : b = ⟨next_id s, title, description, "todo", now, now⟩ := by
        simpa using hb
      subst hb2
      exact ne_of_lt (id_lt_next_id s a ha)
  | del idStr =>
    have hsub : (cmd_delete ["delete", idStr] s).store.Sublist s :=
      cmd_delete_store_sublist _ s
    exact ⟨fun t ht => h1 t (hsub.subset ht), h2.sublist hsub⟩

lemma foldl_applyOp_inv (ops : List Op) (s : List Task)
    (h1 : ∀ t ∈ s, 1 ≤ t.id)
    (h2 : s.Pairwise (fun a b => a.id ≠ b.id)) :
    (∀ t ∈ ops.foldl applyOp s, 1 ≤ t.id) ∧
    (ops.foldl applyOp s).Pairwise (fun a b => a.id ≠ b.id) := by
  induction ops generalizing s with
  | nil => exact ⟨h1, h2⟩
  | cons op ops ih =>
    have h := applyOp_inv s op h1 h2
    exact ih (applyOp s op) h.1 h.2

/-- C1: the entry guard compares `__name__` against the literal `"_main_"`
rather than `"__main__"`, so `main()` is never invoked: for every argument
vector (and store and clock), the script dispatches no command, produces no
output, and exits with status 0. -/
theorem C1_entry_guard_never_runs_main (argv : List String) (store : List Task)
    (now : String) :
    runScript argv store now = ⟨0, store, [], [], []⟩ := by
  have h : NAME_MAIN ≠ ENTRY_GUARD := by decide
  simp [runScript, h]

/-- C2: evaluating `cmd_update` at the failing input — an update supplying
an id (which exists in the store) and a new title but no description is
rejected as a usage error with exit status 1 and an untouched store, even
though the usage string of the command itself declares the description optional. -/
theorem C2_update_without_description_rejected :
    cmd_update ["update", "1", "New title"] [⟨1, "Old", "d", "todo", "t0", "t0"⟩] "t1"
      = ⟨1, [⟨1, "Old", "d", "todo", "t0", "t0"⟩], [], [],
         ["Usage: update <id> <new_title> <new_description(optional)>"]⟩ := by
  rfl

/-- C3 counterexample: after `add`, `add`, `delete 2`, a further `add`
assigns id 2 again — the id deleted one step earlier — so assigned ids are
neither strictly increasing across the sequence nor free of reuse after
deletion. -/
theorem C3_counterexample_id_reuse :
    (execOps [.add "a" "" "t1", .add "b" "" "t2"]).map Task.id = [1, 2] ∧
    (execOps [.add "a" "" "t1", .add "b" "" "t2", .del "2", .add "c" "" "t4"]).map Task.id
      = [1, 2] := by
  exact ⟨by decide, by decide⟩

/-- C3 (amended): for every sequence of add and delete operations starting
from an empty store, the id assigned by an add is `max(existing ids) + 1`
(`1` if the store is empty), which is strictly greater than every id
currently in the store; hence ids in the store are always at least 1 and
pairwise distinct. Ids are however not strictly increasing across the whole
sequence and can be reused once the task holding the maximum id is deleted. -/
theorem C3_id_assignment_amended (ops : List Op) :
    (∀ t ∈ execOps ops, 1 ≤ t.id) ∧
    (execOps ops).Pairwise (fun a b => a.id ≠ b.id) ∧
    (∀ title description now, ∃ t : Task,
      applyOp (execOps ops) (.add title description now) = execOps ops ++ [t] ∧
      t.id = next_id (execOps ops) ∧
      ∀ u ∈ execOps ops, u.id < t.id) := by
  have hinv := foldl_applyOp_inv ops [] (by intro t ht; cases ht) List.Pairwise.nil
  refine ⟨hinv.1, hinv.2, ?_⟩
  intro title description now
  refine ⟨⟨next_id (execOps ops), title, description, "todo", now, now⟩, ?_, rfl, ?_⟩
  · simp [applyOp, cmd_add_store]
  · intro u hu
    exact id_lt_next_id _ u hu

/-- C3 witness: instantiating the amended theorem at the one-add sequence
discharges its membership hypothesis at the concrete task it creates. -/
theorem C3_id_assignment_amended_witness :
    1 ≤ (Task.mk 1 "a" "" "todo" "t" "t").id :=
  (C3_id_assignment_amended [.add "a" "" "t"]).1 ⟨1, "a", "", "todo", "t", "t"⟩ (by decide)

lemma fromJson?_toJson (t : Task) : Task.fromJson? (Task.toJson t) = some t := by
  cases t
  rfl

lemma mapM_fromJson?_map_toJson (ts : List Task) :
    (ts.map Task.toJson).mapM Task.fromJson? = some ts := by
  induction ts with
  | nil => rfl
  | cons t ts ih =>
    simp only [List.map_cons, List.mapM_cons, fromJson?_toJson, ih, Option.pure_def,
      Option.bind_eq_bind, Option.some_bind]

/-- C4: for every list of tasks, `save_tasks` followed immediately by
`load_tasks` returns exactly the serialized task objects, and decoding them
field for field (id, title, description, status, created_at, updated_at)
recovers a task list equal to the saved one. -/
theorem C4_save_load_roundtrip (ts : List Task) (fs : FS) (renameOk : Bool) :
    (load_tasks (save_tasks (ts.map Task.toJson) fs) renameOk).tasks = ts.map Task.toJson ∧
    (load_tasks (save_tasks (ts.map Task.toJson) fs) renameOk).tasks.mapM Task.fromJson?
      = some ts := by
  constructor
  · rfl
  · show (ts.map Task.toJson).mapM Task.fromJson? = some ts
    exact mapM_fromJson?_map_toJson ts

/-- C5: `load_tasks` returns an empty sequence when the store file is
absent, without error; when the file holds valid JSON whose top-level value
is not an array it warns on the error stream and returns an empty sequence
with the file system untouched; when the file holds malformed JSON it
renames the file to the backup path (the name with an additional `.bak`
suffix) and returns an empty sequence, falling back to a warning with the
corrupt file left in place when the rename fails. -/
theorem C5_load_tasks_cases (fs : FS) (renameOk : Bool) :
    (fs.main = .absent → load_tasks fs renameOk = ⟨[], fs, []⟩) ∧
    (∀ j, fs.main = .valid j → (∀ l, j ≠ .arr l) →
      load_tasks fs renameOk
        = ⟨[], fs, ["Warning: tasks.json is not a list; starting with an empty list."]⟩) ∧
    (∀ raw, fs.main = .malformed raw → renameOk = true →
      load_tasks fs renameOk
        = ⟨[], ⟨.absent, .malformed raw, fs.tmp⟩,
           ["Warning: tasks.json was corrupt. Backed up to tasks.json.bak. Starting fresh."]⟩) ∧
    (∀ raw, fs.main = .malformed raw → renameOk = false →
      load_tasks fs renameOk
        = ⟨[], fs, ["Warning: tasks.json was corrupt and could not be backed up. Starting fresh."]⟩) ∧
    pyWithSuffix DB_FILENAME ".json.bak" = DB_FILENAME ++ ".bak" := by
  refine ⟨?_, ?_, ?_, ?_, by decide⟩
  · intro h
    simp [load_tasks, h]
  · intro j hmain hne
    cases j with
    | arr l => exact absurd rfl (hne l)
    | null => simp [load_tasks, hmain]
    | bool b => simp [load_tasks, hmain]
    | num n => simp [load_tasks, hmain]
    | str s => simp [load_tasks, hmain]
    | obj kvs => simp [load_tasks, hmain]
  · intro raw hmain hok
    simp [load_tasks, hmain, hok]
  · intro raw hmain hok
    simp [load_tasks, hmain, hok]

/-- C5 witness: the malformed-file cases of `C5_load_tasks_cases`
instantiated at a concrete corrupt store, with the rename succeeding and
failing. -/
theorem C5_load_tasks_cases_witness :
    load_tasks ⟨.malformed "not json", .absent, .absent⟩ true
      = ⟨[], ⟨.absent, .malformed "not json", .absent⟩,
         ["Warning: tasks.json was corrupt. Backed up to tasks.json.bak. Starting fresh."]⟩ ∧
    load_tasks ⟨.malformed "not json", .absent, .absent⟩ false
      = ⟨[], ⟨.malformed "not json", .absent, .absent⟩,
         ["Warning: tasks.json was corrupt and could not be backed up. Starting fresh."]⟩ ∧
    load_tasks ⟨.valid (.obj []), .absent, .absent⟩ true
      = ⟨[], ⟨.valid (.obj []), .absent, .absent⟩,
         ["Warning: tasks.json is not a list; starting with an empty list."]⟩ ∧
    load_tasks ⟨.absent, .absent, .absent⟩ true = ⟨[], ⟨.absent, .absent, .absent⟩, []⟩ :=
  ⟨(C5_load_tasks_cases ⟨.malformed "not json", .absent, .absent⟩ true).2.2.1 "not json" rfl rfl,
   (C5_load_tasks_cases ⟨.malformed "not json", .absent, .absent⟩ false).2.2.2.1 "not json" rfl rfl,
   (C5_load_tasks_cases ⟨.valid (.obj []), .absent, .absent⟩ true).2.1 (.obj [])
     rfl (fun l h => by cases h),
   (C5_load_tasks_cases ⟨.absent, .absent, .absent⟩ true).1 rfl⟩

/-- C7: marking any stored task to a status outside {todo, in-progress,
done} (after lowercasing) exits with status 1 and leaves the store — in
particular the status and `updated_at` of that task — unchanged. -/
theorem C7_mark_invalid_status (store : List Task) (t : Task) (ht : t ∈ store)
    (stArg now : String) (hst : pyToLower stArg ∉ VALID_STATUSES) :
    (cmd_mark ["mark", toString t.id, stArg] store now).exitCode = 1 ∧
    (cmd_mark ["mark", toString t.id, stArg] store now).store = store := by
  clear ht
  cases hp : parse_int (toString t.id) with
  | none => simp [cmd_mark, hp]
  | some tid => simp [cmd_mark, hp, hst]

/-- C7 witness: a concrete store, its task, and the invalid status value
`FINISHED`. -/
theorem C7_mark_invalid_status_witness :
    (cmd_mark ["mark", toString (Task.mk 1 "a" "" "todo" "t0" "t0").id, "FINISHED"]
        [⟨1, "a", "", "todo", "t0", "t0"⟩] "t1").exitCode = 1 ∧
    (cmd_mark ["mark", toString (Task.mk 1 "a" "" "todo" "t0" "t0").id, "FINISHED"]
        [⟨1, "a", "", "todo", "t0", "t0"⟩] "t1").store
      = [⟨1, "a", "", "todo", "t0", "t0"⟩] :=
  C7_mark_invalid_status [⟨1, "a", "", "todo", "t0", "t0"⟩] ⟨1, "a", "", "todo", "t0", "t0"⟩
    (by decide) "FINISHED" "t1" (by decide)

lemma deleteFilter_no_match (l : List Json) (tid : Int)
    (h : ∀ t ∈ l, jsonHasId t tid = false) :
    deleteFilter tid l = .error () ∨ deleteFilter tid l = .ok l := by
  induction l with
  | nil => exact Or.inr rfl
  | cons t ts ih =>
    have ht := h t (List.mem_cons_self t ts)
    have hts := ih fun u hu => h u (List.mem_cons_of_mem t hu)
    unfold deleteFilter
    cases hg : pyGetId t with
    | error e =>
      cases e
      exact Or.inl rfl
    | ok v =>
      have hv : isIdNum v tid = false := by
        unfold jsonHasId at ht
        rw [hg] at ht
        exact ht
      rcases hts with herr | hok
      · rw [herr]
        exact Or.inl rfl
      · rw [hok]
        simp [hv]

/-- C8: for every store file holding a valid JSON array none of whose
elements carries the given id, delete with that id exits with status 1 and
leaves the whole file system (in particular the store file) unchanged. -/
theorem C8_delete_nonexistent (l : List Json) (bak tmp : FileContent)
    (renameOk : Bool) (idStr : String) (tid : Int)
    (hp : parse_int idStr = some tid)
    (h : ∀ t ∈ l, jsonHasId t tid = false) :
    (cmd_delete_fs ["delete", idStr] ⟨.valid (.arr l), bak, tmp⟩ renameOk).exitCode = 1 ∧
    (cmd_delete_fs ["delete", idStr] ⟨.valid (.arr l), bak, tmp⟩ renameOk).fs
      = ⟨.valid (.arr l), bak, tmp⟩ := by
  have hload : load_tasks ⟨.valid (.arr l), bak, tmp⟩ renameOk
      = ⟨l, ⟨.valid (.arr l), bak, tmp⟩, []⟩ := rfl
  rcases deleteFilter_no_match l tid h with herr | hok
  · constructor <;> simp [cmd_delete_fs, hp, hload, herr]
  · constructor <;> simp [cmd_delete_fs, hp, hload, hok]

/-- C8 witness: a store holding the single task object with id 1, deleting
id 2. -/
theorem C8_delete_nonexistent_witness :
    (cmd_delete_fs ["delete", "2"]
        ⟨.valid (.arr [.obj [("id", .num 1)]]), .absent, .absent⟩ true).exitCode = 1 ∧
    (cmd_delete_fs ["delete", "2"]
        ⟨.valid (.arr [.obj [("id", .num 1)]]), .absent, .absent⟩ true).fs
      = ⟨.valid (.arr [.obj [("id", .num 1)]]), .absent, .absent⟩ :=
  C8_delete_nonexistent [.obj [("id", .num 1)]] .absent .absent true "2" 2
    (by decide) (by decide)

lemma find_task_decomp (store : List Task) (tid : Int) (t : Task)
    (h : find_task store tid = some t) :
    ∃ pre post, store = pre ++ t :: post ∧ (∀ u ∈ pre, u.id ≠ tid) ∧ t.id = tid := by
  induction store with
  | nil => simp [find_task] at h
  | cons a l ih =>
    rw [find_task] at h
    by_cases ha : a.id = tid
    · rw [if_pos ha] at h
      obtain rfl : a = t := by injection h
      exact ⟨[], l, rfl, by simp, ha⟩
    · rw [if_neg ha] at h
      obtain ⟨pre, post, hs, hpre, htid⟩ := ih h
      refine ⟨a :: pre, post, by rw [hs]; rfl, ?_, htid⟩
      intro u hu
      rcases List.mem_cons.mp hu with rfl | hmem
      · exact ha
      · exact hpre u hmem

lemma updateFirst_decomp (pre post : List Task) (t : Task) (tid : Int)
    (f : Task → Task) (hpre : ∀ u ∈ pre, u.id ≠ tid) (ht : t.id = tid) :
    updateFirst tid f (pre ++ t :: post) = pre ++ f t :: post := by
  induction pre with
  | nil => simp [updateFirst, ht]
  | cons a l ih =>
    have ha := hpre a (List.mem_cons_self a l)
    have ih2 := ih fun u hu => hpre u (List.mem_cons_of_mem a hu)
    simp only [List.cons_append, updateFirst, if_neg ha]
    exact congrArg (a :: ·) ih2

/-- C9: a successful update modifies only the targeted (first-matching)
title, description and `updated_at` of the targeted task; its id, status and
`created_at`, and every other task in the store, are unchanged. -/
theorem C9_update_frame (store : List Task) (idStr newTitle newDesc now : String)
    (tid : Int) (t : Task)
    (hp : parse_int idStr = some tid)
    (hf : find_task store tid = some t) :
    ∃ pre post,
      store = pre ++ t :: post ∧
      (∀ u ∈ pre, u.id ≠ tid) ∧
      cmd_update ["update", idStr, newTitle, newDesc] store now
        = ⟨0, pre ++ { t with title := newTitle, description := newDesc, updated_at := now } :: post,
           [{ t with title := newTitle, description := newDesc, updated_at := now }],
           ["Updated task #" ++ toString tid ++ "."], []⟩ ∧
      ({ t with title := newTitle, description := newDesc, updated_at := now } : Task).id
        = t.id ∧
      ({ t with title := newTitle, description := newDesc, updated_at := now } : Task).status
        = t.status ∧
      ({ t with title := newTitle, description := newDesc, updated_at := now } : Task).created_at
        = t.created_at := by
  obtain ⟨pre, post, hs, hpre, htid⟩ := find_task_decomp store tid t hf
  refine ⟨pre, post, hs, hpre, ?_, rfl, rfl, rfl⟩
  have hupd : updateFirst tid
      (fun u => { u with title := newTitle, description := newDesc, updated_at := now }) store
      = pre ++ { t with title := newTitle, description := newDesc, updated_at := now } :: post := by
    rw [hs]
    exact updateFirst_decomp pre post t tid _ hpre htid
  simp [cmd_update, hp, hf, hupd]

/-- C9 witness: a concrete one-task store updated with a new title and
description. -/
theorem C9_update_frame_witness :
    (cmd_update ["update", "1", "N", "D"] [⟨1, "Old", "d", "todo", "t0", "t0"⟩] "t1").exitCode
      = 0 := by
  obtain ⟨pre, post, hs, hpre, heq, _⟩ :=
    C9_update_frame [⟨1, "Old", "d", "todo", "t0", "t0"⟩] "1" "N" "D" "t1" 1
      ⟨1, "Old", "d", "todo", "t0", "t0"⟩ (by decide) (by rfl)
  rw [heq]

/-- C10: for every loaded task list — including ones with duplicate ids —
delete removes every task whose id equals the parsed id (a full filter),
not only the first match, and reports not-found exactly when no task had
that id (leaving the store as it was). -/
theorem C10_delete_full_filter (store : List Task) (idStr : String) (tid : Int)
    (hp : parse_int idStr = some tid) :
    ((∃ t ∈ store, t.id = tid) →
      cmd_delete ["delete", idStr] store
        = ⟨0, store.filter (fun t => !(t.id == tid)), [],
           ["Deleted task #" ++ toString tid ++ "."], []⟩) ∧
    ((∀ t ∈ store, t.id ≠ tid) →
      cmd_delete ["delete", idStr] store
        = ⟨1, store, [], [], ["Error: task #" ++ toString tid ++ " not found."]⟩) ∧
    ((cmd_delete ["delete", idStr] store).err
        = ["Error: task #" ++ toString tid ++ " not found."] ↔ ∀ t ∈ store, t.id ≠ tid) ∧
    (∀ t ∈ (cmd_delete ["delete", idStr] store).store, t.id ≠ tid) := by
  have hiff : (store.filter (fun t => !(t.id == tid))).length = store.length
      ↔ ∀ t ∈ store, t.id ≠ tid := by
    constructor
    · intro hlen
      have heq : store.filter (fun t => !(t.id == tid)) = store :=
        (List.filter_sublist store).eq_of_length hlen
      intro u hu
      have := (List.filter_eq_self.mp heq) u hu
      simpa using this
    · intro hall
      have heq : store.filter (fun t => !(t.id == tid)) = store :=
        List.filter_eq_self.mpr fun u hu => by simpa using hall u hu
      rw [heq]
  by_cases hfull : (store.filter (fun t => !(t.id == tid))).length = store.length
  · have hall := hiff.mp hfull
    have hres : cmd_delete ["delete", idStr] store
        = ⟨1, store, [], [], ["Error: task #" ++ toString tid ++ " not found."]⟩ := by
      simp [cmd_delete, hp, hfull]
    refine ⟨?_, fun _ => hres, ?_, ?_⟩
    · rintro ⟨u, hu, htid⟩
      exact absurd htid (hall u hu)
    · rw [hres]
      simpa using hall
    · rw [hres]
      exact hall
  · have hres : cmd_delete ["delete", idStr] store
        = ⟨0, store.filter (fun t => !(t.id == tid)), [],
           ["Deleted task #" ++ toString tid ++ "."], []⟩ := by
      simp [cmd_delete, hp, hfull]
    refine ⟨fun _ => hres, ?_, ?_, ?_⟩
    · intro hall
      exact absurd (hiff.mpr hall) hfull
    · rw [hres]
      constructor
      · intro hmsg
        exact absurd hmsg (by simp)
      · intro hall
        exact absurd (hiff.mpr hall) hfull
    · rw [hres]
      intro u hu
      have := List.of_mem_filter hu
      simpa using this

/-- C10 witness: a store with two distinct tasks sharing id 1 — delete 1
removes them both, not only the first. -/
theorem C10_delete_full_filter_witness :
    cmd_delete ["delete", "1"]
        [⟨1, "a", "", "todo", "t", "t"⟩, ⟨1, "b", "", "todo", "t", "t"⟩]
      = ⟨0, [], [], ["Deleted task #1."], []⟩ := by
  have h := (C10_delete_full_filter
      [⟨1, "a", "", "todo", "t", "t"⟩, ⟨1, "b", "", "todo", "t", "t"⟩] "1" 1 (by decide)).1
    ⟨⟨1, "a", "", "todo", "t", "t"⟩, by decide, rfl⟩
  exact h.trans (by decide)

lemma taskLe_trans (a b c : Task) (h1 : taskLe a b = true) (h2 : taskLe b c = true) :
    taskLe a c = true := by
  simp only [taskLe, decide_eq_true_eq] at h1 h2 ⊢
  rcases h1 with hlt | ⟨heq, hle⟩ <;> rcases h2 with hlt2 | ⟨heq2, hle2⟩
  · exact Or.inl (lt_trans hlt hlt2)
  · exact Or.inl (heq2 ▸ hlt)
  · exact Or.inl (heq ▸ hlt2)
  · exact Or.inr ⟨heq.trans heq2, le_trans hle hle2⟩

lemma taskLe_total (a b : Task) : (taskLe a b || taskLe b a) = true := by
  simp only [taskLe, Bool.or_eq_true, decide_eq_true_eq]
  rcases lt_trichotomy a.status b.status with h | h | h
  · exact Or.inl (Or.inl h)
  · rcases le_total a.id b.id with hle | hle
    · exact Or.inl (Or.inr ⟨h, hle⟩)
    · exact Or.inr (Or.inr ⟨h.symm, hle⟩)
  · exact Or.inr (Or.inl h)

lemma cmd_list_all_eq (store : List Task) (fltArg : String)
    (hall : pyToLower fltArg = "all") :
    cmd_list ["list", fltArg] store =
      (if store.isEmpty then ⟨0, store, [], ["No tasks to show."], []⟩
       else ⟨0, store, store.mergeSort taskLe, [], []⟩) := by
  simp [cmd_list, hall]

lemma cmd_list_filter_eq (store : List Task) (fltArg : String)
    (hne : pyToLower fltArg ≠ "all") (hmem : pyToLower fltArg ∈ VALID_STATUSES) :
    cmd_list ["list", fltArg] store =
      (if (store.filter (fun t => t.status == pyToLower fltArg)).isEmpty
       then ⟨0, store, [], ["No tasks to show."], []⟩
       else ⟨0, store,
             (store.filter (fun t => t.status == pyToLower fltArg)).mergeSort taskLe,
             [], []⟩) := by
  simp [cmd_list, hne, hmem]

/-- C6: for every store and valid filter, `list` exits 0 without touching
the store and prints exactly the tasks whose status equals the filter (all
tasks for `all`), sorted ascending by the key `(status, id)` — so `list
all` prints as many tasks as the store holds, and a single-status filter
prints tasks sorted by id ascending — and prints `No tasks to show.`
exactly when no task matches. -/
theorem C6_cmd_list_spec (store : List Task) (fltArg : String)
    (hval : pyToLower fltArg = "all" ∨ pyToLower fltArg ∈ VALID_STATUSES) :
    (cmd_list ["list", fltArg] store).exitCode = 0 ∧
    (cmd_list ["list", fltArg] store).store = store ∧
    (cmd_list ["list", fltArg] store).printed.Perm
      (if pyToLower fltArg = "all" then store
       else store.filter (fun t => t.status == pyToLower fltArg)) ∧
    (cmd_list ["list", fltArg] store).printed.Pairwise (fun a b => taskLe a b = true) ∧
    ((if pyToLower fltArg = "all" then store
      else store.filter (fun t => t.status == pyToLower fltArg)) = []
      ↔ (cmd_list ["list", fltArg] store).out = ["No tasks to show."]) ∧
    ((if pyToLower fltArg = "all" then store
      else store.filter (fun t => t.status == pyToLower fltArg)) ≠ []
      → (cmd_list ["list", fltArg] store).out = []) ∧
    (pyToLower fltArg = "all" → (cmd_list ["list", fltArg] store).printed.length
      = store.length) ∧
    (pyToLower fltArg ≠ "all" → (cmd_list ["list", fltArg] store).printed.Pairwise
      (fun a b : Task => a.id ≤ b.id)) := by
  by_cases hall : pyToLower fltArg = "all"
  · rw [cmd_list_all_eq store fltArg hall]
    simp only [if_pos hall]
    by_cases hemp : store = []
    · subst hemp
      simp
    · have hne2 : store.isEmpty = false := by
        simpa [List.isEmpty_iff] using hemp
      simp only [hne2, Bool.false_eq_true, if_false]
      refine ⟨by trivial, by trivial, List.mergeSort_perm store taskLe,
        List.sorted_mergeSort taskLe_trans taskLe_total store,
        iff_of_false hemp (by simp), fun _ => by trivial,
        fun _ => (List.mergeSort_perm store taskLe).length_eq,
        fun h => absurd hall h⟩
  · have hmem : pyToLower fltArg ∈ VALID_STATUSES := hval.resolve_left hall
    rw [cmd_list_filter_eq store fltArg hall hmem]
    simp only [if_neg hall]
    by_cases hemp : store.filter (fun t => t.status == pyToLower fltArg) = []
    · have hemp2 : (store.filter (fun t => t.status == pyToLower fltArg)).isEmpty = true := by
        simp [List.isEmpty_iff, hemp]
      simp only [hemp2, if_true]
      refine ⟨by trivial, by trivial, by rw [hemp], List.Pairwise.nil,
        iff_of_true hemp (by trivial), fun h => absurd hemp h,
        fun h => absurd h hall, fun _ => List.Pairwise.nil⟩
    · have hemp2 : (store.filter (fun t => t.status == pyToLower fltArg)).isEmpty = false := by
        simpa [List.isEmpty_iff] using hemp
      simp only [hemp2, Bool.false_eq_true, if_false]
      have hsorted : ((store.filter (fun t => t.status == pyToLower fltArg)).mergeSort
          taskLe).Pairwise (fun a b => taskLe a b = true) :=
        List.sorted_mergeSort taskLe_trans taskLe_total _
      refine ⟨by trivial, by trivial, List.mergeSort_perm _ taskLe, hsorted,
        iff_of_false hemp (by simp), fun _ => by trivial,
        fun h => absurd h hall, fun _ => ?_⟩
      refine hsorted.imp_of_mem ?_
      intro a b ha hb hle
      have ha2 : a.status = pyToLower fltArg := by
        have := (List.mem_filter.mp (List.mem_mergeSort.mp ha)).2
        simpa using this
      have hb2 : b.status = pyToLower fltArg := by
        have := (List.mem_filter.mp (List.mem_mergeSort.mp hb)).2
        simpa using this
      simp only [taskLe, decide_eq_true_eq] at hle
      rcases hle with hlt | ⟨_, hle⟩
      · rw [ha2, hb2] at hlt
        exact absurd hlt (lt_irrefl (pyToLower fltArg))
      · exact hle
/-- C6 witness: a concrete three-task store listed with filter `done`. -/
theorem C6_cmd_list_spec_witness :
    (cmd_list ["list", "done"]
        [⟨1, "a", "", "done", "t", "t"⟩, ⟨2, "b", "", "todo", "t", "t"⟩,
         ⟨3, "c", "", "done", "t", "t"⟩]).exitCode = 0 ∧
    (cmd_list ["list", "done"]
        [⟨1, "a", "", "done", "t", "t"⟩, ⟨2, "b", "", "todo", "t", "t"⟩,
         ⟨3, "c", "", "done", "t", "t"⟩]).printed.Pairwise (fun a b => a.id ≤ b.id) := by
  have h := C6_cmd_list_spec
    [⟨1, "a", "", "done", "t", "t"⟩, ⟨2, "b", "", "todo", "t", "t"⟩,
     ⟨3, "c", "", "done", "t", "t"⟩] "done" (Or.inr (by decide))
  exact ⟨h.1, h.2.2.2.2.2.2.2 (by decide)⟩

end TaskTracker
